import Mathlib

/-!
Shallow embedding of the pricing-resolution engine of the easyprint price
agent: the quantity-tier resolver (`getPriceForQuantity`), the tier-list
query (`getAllPricingTiers`), the print-option resolver
(`matchPrintOption`), the natural-language pricing pipeline
(`getPricingForProducts`) with the route-level delivery fallback
(`queryWithFallback`), and the tiered product search (`searchProducts`).

The external relational store is modelled as an in-memory list of rows;
each store query becomes a pure filter/sort/limit over that list.
JavaScript truthiness of optional parameters is modelled explicitly.
-/

/-- Contiguous-sublist test on character lists. -/
def listContainsChar (needle : List Char) : List Char → Bool
  | [] => needle.isEmpty
  | c :: t => needle.isPrefixOf (c :: t) || listContainsChar needle t

/-- Case-sensitive substring test, `hay.includes(needle)` in the source.
The empty needle is a substring of everything, as in JavaScript. -/
def strContains (hay needle : String) : Bool :=
  listContainsChar needle.toList hay.toList

/-- ASCII lower-casing of one character, `c.toLowerCase()` on the ASCII
range. -/
def charLower (c : Char) : Char :=
  if 65 ≤ c.toNat ∧ c.toNat ≤ 90 then Char.ofNat (c.toNat + 32) else c

/-- `s.toLowerCase()` on the ASCII range. -/
def strLower (s : String) : String := String.mk (s.toList.map charLower)

/-- `s.trim()`: strip whitespace from both ends. -/
def strTrim (s : String) : String :=
  String.mk (((s.toList.dropWhile Char.isWhitespace).reverse.dropWhile
    Char.isWhitespace).reverse)

/-- Build the tokens of `s.split(' ')`: split at every single space
character, keeping empty tokens. -/
def splitOnSpaceGo : List Char → List Char → List String
  | [], acc => [String.mk acc.reverse]
  | c :: cs, acc =>
    if c = ' ' then String.mk acc.reverse :: splitOnSpaceGo cs []
    else splitOnSpaceGo cs (c :: acc)

/-- JavaScript `s.split(' ')`. -/
def splitOnSpace (s : String) : List String := splitOnSpaceGo s.toList []

/-- Case-insensitive substring test: the `ilike %pattern%` store filter. -/
def strIContains (hay needle : String) : Bool :=
  strContains (strLower hay) (strLower needle)

/-- JavaScript `s.split(/\s+/)`: split at maximal whitespace runs, keeping
an empty leading (trailing) token when the string starts (ends) with
whitespace, and returning `[""]` on the empty string. -/
def jsSplitWs (s : String) : List String :=
  let f := fun (acc : List String × String × Bool) (c : Char) =>
    if c.isWhitespace then
      if acc.2.2 then acc else (acc.1 ++ [acc.2.1], "", true)
    else (acc.1, acc.2.1.push c, false)
  let r := s.toList.foldl f ([], "", false)
  r.1 ++ [r.2.1]

/-- Significant words of a query: case-folded whitespace tokens of length
greater than 2 (`split(/\s+/).filter(w => w.length > 2)`). -/
def sigWords (s : String) : List String :=
  (jsSplitWs (strLower s)).filter (fun w => w.length > 2)

/-- Order-preserving deduplication, `[...new Set(xs)]` in the source:
keeps the first occurrence of each element. -/
def uniqueKeepFirstGo (seen : List String) : List String → List String
  | [] => []
  | x :: xs =>
    if x ∈ seen then uniqueKeepFirstGo seen xs
    else x :: uniqueKeepFirstGo (x :: seen) xs

/-- Order-preserving deduplication entry point. -/
def uniqueKeepFirst (l : List String) : List String :=
  uniqueKeepFirstGo [] l

/-- Try to match the color-notation regex `(\d)c\s*x\s*(\d)c` at the head
of an (already lower-cased) character list. -/
def matchColorAt : List Char → Option (Char × Char)
  | d1 :: 'c' :: rest =>
    if d1.isDigit then
      match rest.dropWhile Char.isWhitespace with
      | 'x' :: rest2 =>
        match rest2.dropWhile Char.isWhitespace with
        | d2 :: 'c' :: _ => if d2.isDigit then some (d1, d2) else none
        | _ => none
      | _ => none
    else none
  | _ => none

/-- Leftmost match of the color-notation regex `(\d)c\s*x\s*(\d)c` over an
(already lower-cased) character list, returning the two captured digits:
the model of `text.match(/(\d)c\s*x\s*(\d)c/i)` on a lower-cased text. -/
def findColor : List Char → Option (Char × Char)
  | [] => none
  | c :: cs =>
    match matchColorAt (c :: cs) with
    | some p => some p
    | none => findColor cs

/-- The normalized color pattern `"<d1>c x <d2>c"` rebuilt from the two
captured digits. -/
def colorPatternStr (d1 d2 : Char) : String :=
  String.mk [d1, 'c', ' ', 'x', ' ', d2, 'c']

/-- JavaScript truthiness of an optional string parameter: present and
non-empty. -/
def jsTruthyStr : Option String → Bool
  | none => false
  | some s => s != ""

/-- JavaScript truthiness of an optional numeric parameter: present and
non-zero. -/
def jsTruthyNat : Option Nat → Bool
  | none => false
  | some n => n != 0

/-- One row of the `pricing` store: a (product, print option, delivery
class, quantity) price point. -/
structure PricingRow where
  product_name : String
  print_option : String
  lead_time_type : String
  lead_time_days_min : Nat
  lead_time_days_max : Nat
  quantity : Nat
  unit_price : ℚ
  currency : String
  is_moq : Bool
deriving DecidableEq, Repr

/-- One row of the `products` store. -/
structure Product where
  name : String
  category : Option String
  dimensions : Option String
deriving DecidableEq, Repr

/-- The object built by `formatPricingRow` plus the fields the resolver
adds on top (`requested_quantity`, `total_price`, `note`).  A missing
JavaScript property is modelled as `none`. -/
structure PriceResult where
  product_name : String
  print_option : String
  lead_time_type : String
  lead_time_days_min : Nat
  lead_time_days_max : Nat
  quantity : Nat
  unit_price : ℚ
  currency : String
  is_moq : Bool
  requested_quantity : Option Nat
  total_price : Option ℚ
  note : Option String
deriving DecidableEq, Repr

/-- `parseFloat((x).toFixed(2))`: rounding to two decimal places. -/
def round2 (x : ℚ) : ℚ := (round (x * 100) : ℤ) / 100

/-- The row selected by `order('quantity', descending).limit(1)`: a row of
maximal quantity (the earliest such row when quantities tie). -/
def pickMaxQty : List PricingRow → Option PricingRow
  | [] => none
  | r :: rs =>
    match pickMaxQty rs with
    | none => some r
    | some m => if r.quantity < m.quantity then some m else some r

/-- The row selected by `order('quantity', ascending).limit(1)`: a row of
minimal quantity (the earliest such row when quantities tie). -/
def pickMinQty : List PricingRow → Option PricingRow
  | [] => none
  | r :: rs =>
    match pickMinQty rs with
    | none => some r
    | some m => if m.quantity < r.quantity then some m else some r

/-- Insert a row into a quantity-ascending sorted list (stable). -/
def insertByQty (r : PricingRow) : List PricingRow → List PricingRow
  | [] => [r]
  | x :: xs => if r.quantity ≤ x.quantity then r :: x :: xs else x :: insertByQty r xs

/-- `order('quantity', ascending)`: stable sort by quantity. -/
def sortByQtyAsc : List PricingRow → List PricingRow
  | [] => []
  | x :: xs => insertByQty x (sortByQtyAsc xs)

/-- The rows returned by the first query of `getPriceForQuantity`:
filter on product name, conditionally on print option (when truthy),
conditionally on lead time type (when non-empty), and conditionally on a
quantity ceiling (when the requested quantity is truthy). -/
def firstQueryRows (db : List PricingRow) (productName : String)
    (printOption : Option String) (leadTimeType : String)
    (quantity : Option Nat) : List PricingRow :=
  db.filter fun r =>
    r.product_name == productName
    && (!jsTruthyStr printOption || r.print_option == printOption.getD "")
    && (leadTimeType == "" || r.lead_time_type == leadTimeType)
    && (!jsTruthyNat quantity || decide (r.quantity ≤ quantity.getD 0))

/-- The rows returned by the MOQ fallback query of `getPriceForQuantity`:
filter on product name, `print_option = printOption || ''`,
`lead_time_type = leadTimeType` and `is_moq = true`. -/
def moqQueryRows (db : List PricingRow) (productName : String)
    (printOption : Option String) (leadTimeType : String) : List PricingRow :=
  db.filter fun r =>
    r.product_name == productName
    && r.print_option == printOption.getD ""
    && r.lead_time_type == leadTimeType
    && r.is_moq

/-- The result built from a selected tier in the normal branch of
`getPriceForQuantity`: `formatPricingRow` output plus the requested
quantity and a total price when the quantity is truthy. -/
def normalResult (tier : PricingRow) (quantity : Option Nat) : PriceResult :=
  { product_name := tier.product_name
    print_option := tier.print_option
    lead_time_type := tier.lead_time_type
    lead_time_days_min := tier.lead_time_days_min
    lead_time_days_max := tier.lead_time_days_max
    quantity := tier.quantity
    unit_price := tier.unit_price
    currency := tier.currency
    is_moq := tier.is_moq
    requested_quantity := quantity
    total_price :=
      if jsTruthyNat quantity then some (round2 (tier.unit_price * (quantity.getD 0 : ℚ)))
      else none
    note := none }

/-- The result built from the MOQ tier in the fallback branch of
`getPriceForQuantity`: `formatPricingRow` output plus the requested
quantity and the below-minimum note; no `total_price`. -/
def moqResult (tier : PricingRow) (quantity : Option Nat) : PriceResult :=
  { product_name := tier.product_name
    print_option := tier.print_option
    lead_time_type := tier.lead_time_type
    lead_time_days_min := tier.lead_time_days_min
    lead_time_days_max := tier.lead_time_days_max
    quantity := tier.quantity
    unit_price := tier.unit_price
    currency := tier.currency
    is_moq := tier.is_moq
    requested_quantity := quantity
    total_price := none
    note := some ("Minimum order quantity is " ++ toString tier.quantity) }

/-- Model of `getPriceForQuantity` from the price-query service: select
the row of largest quantity passing the first query's filters; when that
query is empty, fall back to the group's `is_moq = true` row (keyed with
`print_option = printOption || ''`); return null when both are empty. -/
def getPriceForQuantity (db : List PricingRow) (productName : String)
    (printOption : Option String) (leadTimeType : String)
    (quantity : Option Nat) : Option PriceResult :=
  match pickMaxQty (firstQueryRows db productName printOption leadTimeType quantity) with
  | some tier => some (normalResult tier quantity)
  | none =>
    match (moqQueryRows db productName printOption leadTimeType).head? with
    | some m => some (moqResult m quantity)
    | none => none

/-- Lead-time information taken from the first row of a tier list. -/
structure LeadTimeInfo where
  type : String
  days_min : Nat
  days_max : Nat
deriving DecidableEq, Repr

/-- One entry of the tier list returned by `getAllPricingTiers`. -/
structure TierInfo where
  quantity : Nat
  unit_price : ℚ
  is_moq : Bool
deriving DecidableEq, Repr

/-- The object returned by `getAllPricingTiers`. -/
structure AllTiers where
  product_name : String
  print_option : String
  lead_time : LeadTimeInfo
  tiers : List TierInfo
deriving DecidableEq, Repr

/-- Model of `getAllPricingTiers`: all rows of the variant sorted by
quantity ascending, or null when there are none. -/
def getAllPricingTiers (db : List PricingRow) (productName : String)
    (printOption : Option String) (leadTimeType : String) : Option AllTiers :=
  let rows := sortByQtyAsc (db.filter fun r =>
    r.product_name == productName
    && (!jsTruthyStr printOption || r.print_option == printOption.getD "")
    && (leadTimeType == "" || r.lead_time_type == leadTimeType))
  match rows with
  | [] => none
  | first :: _ => some
      { product_name := productName
        print_option := if jsTruthyStr printOption then printOption.getD "" else first.print_option
        lead_time :=
          { type := first.lead_time_type
            days_min := first.lead_time_days_min
            days_max := first.lead_time_days_max }
        tiers := rows.map (fun r => ⟨r.quantity, r.unit_price, r.is_moq⟩) }

/-- The ordered keyword-mapping table of `matchPrintOption`: trigger
phrases paired with the target substring to look for among the recorded
options. -/
def printMappings : List (List String × String) :=
  [ (["no print", "plain", "blank", "without print"], "no print"),
    (["1 color", "one color", "single color", "1 colour"], "1c x 0c"),
    (["2 color", "two color", "2 colour"], "2c x 0c"),
    (["full color", "full colour", "multicolor"], "heat transfer"),
    (["heat transfer"], "heat transfer"),
    (["silkscreen", "silk screen", "screen print"], "silkscreen"),
    (["embroidery", "embroid"], "embroidery"),
    (["laser", "engrave", "engraving"], "laser"),
    (["uv print", "uv"], "uv"),
    (["deboss", "debossing"], "deboss") ]

/-- Walk the keyword-mapping rules top to bottom: the first rule whose
trigger phrase occurs in the input and whose target occurs in some
recorded option wins; a triggered rule with no matching option falls
through to the next rule. -/
def mappingLoop (opts : List String) (inp : String) :
    List (List String × String) → Option String
  | [] => none
  | (pats, tgt) :: rest =>
    if pats.any (fun p => strContains inp p) then
      match opts.find? (fun opt => strContains (strLower opt) (strLower tgt)) with
      | some m => some m
      | none => mappingLoop opts inp rest
    else mappingLoop opts inp rest

/-- The matching cascade of `matchPrintOption` over the deduplicated set
of recorded options and the normalized (lower-cased, trimmed) user input:
color-notation exact match, then keyword mapping, then direct substring
matching in either direction, then the first recorded option. -/
def matchPrintOptionCore (availableOptions : List String)
    (normalizedInput : String) : Option String :=
  let afterColor : Option String :=
    match findColor normalizedInput.toList with
    | some (d1, d2) =>
      availableOptions.find? (fun opt => strContains (strLower opt) (colorPatternStr d1 d2))
    | none => none
  match afterColor with
  | some m => some m
  | none =>
    match mappingLoop availableOptions normalizedInput printMappings with
    | some m => some m
    | none =>
      match availableOptions.find? (fun opt =>
          strContains (strLower opt) normalizedInput
          || strContains normalizedInput (strLower opt)) with
      | some m => some m
      | none => availableOptions.head?

/-- Model of `matchPrintOption`: fetch the recorded print options for
(productName, leadTimeType) and run the matching cascade; null when the
variant has no recorded options. -/
def matchPrintOption (db : List PricingRow) (productName userInput leadTimeType : String) :
    Option String :=
  let rows := db.filter fun r =>
    r.product_name == productName && r.lead_time_type == leadTimeType
  if rows.isEmpty then none
  else
    matchPrintOptionCore (uniqueKeepFirst (rows.map (·.print_option)))
      (strTrim (strLower userInput))

/-- Model of `matchPrintOption` with an explicit store answer that may
fail: the source checks `if (error || !data || data.length === 0) return
null`, so a store failure is converted into a null return instead of
being propagated. -/
def matchPrintOptionE (resp : Except String (List PricingRow)) (userInput : String) :
    Except String (Option String) :=
  match resp with
  | Except.error _ => Except.ok none
  | Except.ok data =>
    if data.isEmpty then Except.ok none
    else
      Except.ok (matchPrintOptionCore (uniqueKeepFirst (data.map (·.print_option)))
        (strTrim (strLower userInput)))

/-- Model of `searchExact` with an explicit store answer that may fail:
the source throws `Database error: ...` on a store error, so the failure
propagates to the caller. -/
def searchExactE (resp : Except String (List Product)) :
    Except String (List Product) :=
  match resp with
  | Except.error msg => Except.error ("Database error: " ++ msg)
  | Except.ok data => Except.ok data

/-- The `pricing` sub-object of a pipeline result. -/
structure PricingSummary where
  requested_quantity : Option Nat
  unit_price : ℚ
  total_price : Option ℚ
  currency : String
deriving DecidableEq, Repr

/-- The `moq` sub-object of a pipeline result. -/
structure MoqInfo where
  quantity : Nat
  print_option : String
  unit_price : ℚ
deriving DecidableEq, Repr

/-- One element of the list returned by `getPricingForProducts`. -/
structure ProductPricingResult where
  product_name : String
  dimensions : Option String
  category : Option String
  print_option : String
  lead_time : Option LeadTimeInfo
  pricing : PricingSummary
  moq : Option MoqInfo
  all_tiers : List TierInfo
deriving DecidableEq, Repr

/-- A default product row, used only as the unreachable default of
`headD` on a list known to be non-empty. -/
def defaultProduct : Product := { name := "", category := none, dimensions := none }

/-- The per-candidate lambda of `getPricingForProducts`: resolve the
print option (first recorded option when the user gave none, fuzzy
matching plus the color-notation precision check when they did), then
price the variant, collect the tier list, the variant MOQ row and the
product dimensions; null drops the candidate. -/
def processProduct (pricingDb : List PricingRow) (productsDb : List Product)
    (quantity : Option Nat) (printOption : Option String) (leadTimeType : String)
    (product : Product) : Option ProductPricingResult :=
  let selectedPrintOption : Option String :=
    if jsTruthyStr printOption then
      match matchPrintOption pricingDb product.name (printOption.getD "") leadTimeType with
      | none => none
      | some spo =>
        match findColor (strLower (printOption.getD "")).toList with
        | some (d1, d2) =>
          if strContains (strLower spo) (colorPatternStr d1 d2) then some spo else none
        | none => some spo
    else
      (pricingDb.find? (fun r =>
        r.product_name == product.name && r.lead_time_type == leadTimeType)).map
        (·.print_option)
  match selectedPrintOption with
  | none => none
  | some spo =>
    match getPriceForQuantity pricingDb product.name (some spo) leadTimeType quantity with
    | none => none
    | some pricing =>
      let allTiers := getAllPricingTiers pricingDb product.name (some spo) leadTimeType
      let moqRow := pickMinQty (pricingDb.filter fun r =>
        r.product_name == product.name && r.print_option == spo
          && r.lead_time_type == leadTimeType)
      let dims0 := product.dimensions
      let dimensions :=
        if jsTruthyStr dims0 then dims0
        else
          match productsDb.filter (fun p => p.name == product.name) with
          | [p] => p.dimensions
          | _ => dims0
      some
        { product_name := product.name
          dimensions := dimensions
          category := product.category
          print_option := spo
          lead_time := allTiers.map (·.lead_time)
          pricing :=
            { requested_quantity := quantity
              unit_price := pricing.unit_price
              total_price := pricing.total_price
              currency := pricing.currency }
          moq := moqRow.map (fun r => ⟨r.quantity, spo, r.unit_price⟩)
          all_tiers := match allTiers with | some t => t.tiers | none => [] }

/-- Model of `getPricingForProducts`: when a print option was requested,
first narrow (or broaden) the candidate list to products recording that
option, then run the per-candidate resolution and drop the nulls. -/
def getPricingForProducts (pricingDb : List PricingRow) (productsDb : List Product)
    (products : List Product) (quantity : Option Nat) (printOption : Option String)
    (leadTimeType : String) : List ProductPricingResult :=
  if products.isEmpty then []
  else
    let productsToProcess :=
      if jsTruthyStr printOption then
        let po := printOption.getD ""
        let searchPattern :=
          match findColor (strLower po).toList with
          | some (d1, d2) => colorPatternStr d1 d2
          | none => po
        let productNames := products.map (·.name)
        let matchingPricing := pricingDb.filter fun r =>
          productNames.contains r.product_name && r.lead_time_type == leadTimeType
            && strIContains r.print_option searchPattern
        let p1 :=
          if !matchingPricing.isEmpty then
            let matchingNames := uniqueKeepFirst (matchingPricing.map (·.product_name))
            products.filter (fun p => matchingNames.contains p.name)
          else products
        if p1.isEmpty || matchingPricing.isEmpty then
          let searchTerms := (splitOnSpace (products.headD defaultProduct).name).filter
            (fun w => w.length > 2)
          let broaderSearch := pricingDb.filter fun r =>
            r.lead_time_type == leadTimeType && strIContains r.print_option searchPattern
          if !broaderSearch.isEmpty then
            let broaderNames := uniqueKeepFirst (broaderSearch.map (·.product_name))
            let relevantProducts := broaderNames.filter fun name =>
              searchTerms.any (fun term => strContains (strLower name) (strLower term))
            if !relevantProducts.isEmpty then
              relevantProducts.map (fun n => { name := n, dimensions := none, category := none })
            else p1
          else p1
        else p1
      else products
    (productsToProcess.map
      (processProduct pricingDb productsDb quantity printOption leadTimeType)).filterMap id

/-- Model of the delivery fallback of the free-text route handler: when
the first resolution returns no results and the requested class was
`local`, retry with `overseas_air` and then `overseas_sea`; the second
component is the delivery class actually used. -/
def queryWithFallback (pricingDb : List PricingRow) (productsDb : List Product)
    (products : List Product) (quantity : Option Nat) (printOption : Option String)
    (leadTimeType : String) : List ProductPricingResult × String :=
  let results := getPricingForProducts pricingDb productsDb products quantity printOption leadTimeType
  if results.isEmpty && leadTimeType == "local" then
    let r2 := getPricingForProducts pricingDb productsDb products quantity printOption "overseas_air"
    if r2.isEmpty then
      (getPricingForProducts pricingDb productsDb products quantity printOption "overseas_sea",
        "overseas_sea")
    else (r2, "overseas_air")
  else (results, leadTimeType)

/-- The conditional category filter of the search queries: applied only
when a category was supplied (and non-empty). -/
def catMatch (category : Option String) (p : Product) : Bool :=
  if jsTruthyStr category then p.category == some (category.getD "") else true

/-- Model of `searchExact` (tier 1): byte-for-byte name equality. -/
def searchExact (store : List Product) (query : String) (category : Option String)
    (lim : Nat) : List Product :=
  (store.filter (fun p => p.name == query && catMatch category p)).take lim

/-- Model of `searchExactInsensitive` (tier 2): `ilike` with no
wildcards, i.e. case-insensitive name equality. -/
def searchExactInsensitive (store : List Product) (query : String)
    (category : Option String) (lim : Nat) : List Product :=
  (store.filter (fun p => strLower p.name == strLower query && catMatch category p)).take lim

/-- Model of `searchFuzzy` (tier 3): candidates whose name contains every
significant word of the query; with no significant words, a plain
case-insensitive contains search on the trimmed query. -/
def searchFuzzy (store : List Product) (query : String) (category : Option String)
    (lim : Nat) : List Product :=
  let words := (jsSplitWs (strLower query)).filter (fun w => w.length > 2)
  if words.isEmpty then
    (store.filter (fun p => strIContains p.name (strTrim query) && catMatch category p)).take lim
  else
    (store.filter (fun p =>
      words.all (fun w => strContains (strLower p.name) w) && catMatch category p)).take lim

/-- Model of `validateMatch`: accept when the query has no significant
words, otherwise require at least half of its significant words to
overlap (substring in either direction) with some word of the candidate
name. -/
def validateMatch (searchTerm foundProductName : String) : Bool :=
  let searchWords := sigWords searchTerm
  let productWords := jsSplitWs (strLower foundProductName)
  if searchWords.isEmpty then true
  else
    let matchingWords := searchWords.filter fun sw =>
      productWords.any (fun pw => strContains pw sw || strContains sw pw)
    decide (searchWords.length ≤ 2 * matchingWords.length)

/-- Model of `searchProducts`: the three tiers evaluated in strict
priority, stopping at the first non-empty one, the fuzzy tier passing
through the validation filter; each result is tagged with its confidence
tier. -/
def searchProducts (store : List Product) (query : String) (category : Option String)
    (lim : Nat) : List (Product × String) :=
  if strTrim query == "" then []
  else
    let searchTerm := strTrim query
    let r1 := searchExact store searchTerm category lim
    if !r1.isEmpty then r1.map (fun p => (p, "exact"))
    else
      let r2 := searchExactInsensitive store searchTerm category lim
      if !r2.isEmpty then r2.map (fun p => (p, "exact_insensitive"))
      else
        let r3 := searchFuzzy store searchTerm category lim
        let validated := r3.filter (fun p => validateMatch searchTerm p.name)
        if !validated.isEmpty then validated.map (fun p => (p, "fuzzy"))
        else []

theorem pickMaxQty_eq_none_iff (l : List PricingRow) : pickMaxQty l = none ↔ l = [] := by
  cases l with
  | nil => simp [pickMaxQty]
  | cons r rs =>
    simp only [pickMaxQty]
    cases pickMaxQty rs with
    | none => simp
    | some m =>
      by_cases h : r.quantity < m.quantity <;> simp [h]

theorem pickMaxQty_mem {l : List PricingRow} {m : PricingRow}
    (h : pickMaxQty l = some m) : m ∈ l := by
  induction l generalizing m with
  | nil => simp [pickMaxQty] at h
  | cons r rs ih =>
    simp only [pickMaxQty] at h
    cases hrs : pickMaxQty rs with
    | none => rw [hrs] at h; simp at h; simp [h]
    | some m0 =>
      rw [hrs] at h
      by_cases hlt : r.quantity < m0.quantity
      · simp [hlt] at h; subst h; exact List.mem_cons_of_mem _ (ih hrs)
      · simp [hlt] at h; simp [h]

theorem pickMaxQty_max {l : List PricingRow} {m : PricingRow}
    (h : pickMaxQty l = some m) : ∀ x ∈ l, x.quantity ≤ m.quantity := by
  induction l generalizing m with
  | nil => simp [pickMaxQty] at h
  | cons r rs ih =>
    simp only [pickMaxQty] at h
    cases hrs : pickMaxQty rs with
    | none =>
      rw [hrs] at h; simp at h
      subst h
      have hnil : rs = [] := (pickMaxQty_eq_none_iff rs).mp hrs
      subst hnil
      intro x hx
      rcases List.mem_cons.mp hx with hx | hx
      · subst hx; exact le_refl _
      · simp at hx
    | some m0 =>
      rw [hrs] at h
      intro x hx
      by_cases hlt : r.quantity < m0.quantity
      · simp [hlt] at h
        subst h
        rcases List.mem_cons.mp hx with hx | hx
        · subst hx; exact le_of_lt hlt
        · exact ih hrs x hx
      · simp [hlt] at h
        subst h
        rcases List.mem_cons.mp hx with hx | hx
        · subst hx; exact le_refl _
        · exact le_trans (ih hrs x hx) (not_lt.mp hlt)

theorem mem_firstQueryRows {db : List PricingRow} {pn po lt : String} {q : Nat}
    {r : PricingRow} (hpo : po ≠ "") (hlt : lt ≠ "") (hq : q ≠ 0) :
    r ∈ firstQueryRows db pn (some po) lt (some q) ↔
      r ∈ db ∧ r.product_name = pn ∧ r.print_option = po
        ∧ r.lead_time_type = lt ∧ r.quantity ≤ q := by
  have h1 : jsTruthyStr (some po) = true := by simp [jsTruthyStr, hpo]
  have h2 : (lt == "") = false := by simp [hlt]
  have h3 : jsTruthyNat (some q) = true := by simp [jsTruthyNat, hq]
  simp [firstQueryRows, List.mem_filter, h1, h2, h3, and_assoc]

theorem mem_firstQueryRows_noqty {db : List PricingRow} {pn po lt : String}
    {r : PricingRow} (hpo : po ≠ "") (hlt : lt ≠ "") :
    r ∈ firstQueryRows db pn (some po) lt none ↔
      r ∈ db ∧ r.product_name = pn ∧ r.print_option = po ∧ r.lead_time_type = lt := by
  have h1 : jsTruthyStr (some po) = true := by simp [jsTruthyStr, hpo]
  have h2 : (lt == "") = false := by simp [hlt]
  simp [firstQueryRows, List.mem_filter, h1, h2, jsTruthyNat, and_assoc]

theorem mem_moqQueryRows {db : List PricingRow} {pn po lt : String}
    {r : PricingRow} :
    r ∈ moqQueryRows db pn (some po) lt ↔
      r ∈ db ∧ r.product_name = pn ∧ r.print_option = po
        ∧ r.lead_time_type = lt ∧ r.is_moq = true := by
  simp [moqQueryRows, List.mem_filter, and_assoc]

theorem head_eq_of_all_eq {l : List PricingRow} {m : PricingRow}
    (hne : l ≠ []) (hall : ∀ x ∈ l, x = m) : l.head? = some m := by
  cases l with
  | nil => exact absurd rfl hne
  | cons a t => simp [List.head?]; exact hall a (List.mem_cons_self a t)

/-- Claim C1: for a call to the quantity-tier resolver with a (truthy)
quantity, if at least one tier of the (productName, printOption,
deliveryClass) group has quantity at most the requested quantity, the
returned result is built from the group tier of largest quantity at or
below the requested quantity (`tier` here, pinned as the unique maximal
qualifying tier of the group). -/
theorem C1_largest_tier_at_or_below (db : List PricingRow) (pn po lt : String) (q : Nat)
    (tier : PricingRow)
    (hq : q ≠ 0) (hpo : po ≠ "") (hlt : lt ≠ "")
    (hmem : tier ∈ db) (hpn : tier.product_name = pn) (hpo2 : tier.print_option = po)
    (hlt2 : tier.lead_time_type = lt) (hle : tier.quantity ≤ q)
    (hmax : ∀ r ∈ db, r.product_name = pn → r.print_option = po → r.lead_time_type = lt →
      r.quantity ≤ q → r.quantity ≤ tier.quantity)
    (huniq : ∀ r ∈ db, r.product_name = pn → r.print_option = po → r.lead_time_type = lt →
      r.quantity = tier.quantity → r = tier) :
    getPriceForQuantity db pn (some po) lt (some q) = some (normalResult tier (some q)) := by
  have htl : tier ∈ firstQueryRows db pn (some po) lt (some q) :=
    (mem_firstQueryRows hpo hlt hq).mpr ⟨hmem, hpn, hpo2, hlt2, hle⟩
  cases hm : pickMaxQty (firstQueryRows db pn (some po) lt (some q)) with
  | none =>
    rw [pickMaxQty_eq_none_iff] at hm
    rw [hm] at htl
    simp at htl
  | some m =>
    have hmmem := pickMaxQty_mem hm
    obtain ⟨hmdb, hmpn, hmpo, hmlt, hmle⟩ := (mem_firstQueryRows hpo hlt hq).mp hmmem
    have h1 : tier.quantity ≤ m.quantity := pickMaxQty_max hm tier htl
    have h2 : m.quantity ≤ tier.quantity := hmax m hmdb hmpn hmpo hmlt hmle
    have heq : m = tier := huniq m hmdb hmpn hmpo hmlt (le_antisymm h2 h1)
    simp [getPriceForQuantity, hm, heq]

/-- A concrete pricing row of the example catalog used by the witnesses:
a Lanyard tier at the given quantity and unit price. -/
def lanyardRow (q : Nat) (p : ℚ) (moq : Bool) : PricingRow :=
  { product_name := "Lanyard", print_option := "1c x 0c", lead_time_type := "local",
    lead_time_days_min := 3, lead_time_days_max := 5, quantity := q, unit_price := p,
    currency := "SGD", is_moq := moq }

/-- The spec's example tier group {30, 40, 50, 100, 500, 1000} at
decreasing unit prices, the quantity-30 tier being the MOQ tier. -/
def exDbC1 : List PricingRow :=
  [lanyardRow 30 6 true, lanyardRow 40 5 false, lanyardRow 50 4 false,
   lanyardRow 100 3 false, lanyardRow 500 2 false, lanyardRow 1000 1 false]

/-- The quantity-100 tier of the example group. -/
def tierC1_100 : PricingRow := lanyardRow 100 3 false

/-- Claim C1 witness: with the spec's example tiers
{30, 40, 50, 100, 500, 1000} and requested quantity 475, the resolver
returns the quantity-100 tier. -/
theorem C1_largest_tier_at_or_below_witness :
    getPriceForQuantity exDbC1 "Lanyard" (some "1c x 0c") "local" (some 475)
      = some (normalResult tierC1_100 (some 475)) :=
  C1_largest_tier_at_or_below exDbC1 "Lanyard" "1c x 0c" "local" 475 tierC1_100
    (by decide) (by decide) (by decide) (by decide) (by decide) (by decide)
    (by decide) (by decide) (by decide) (by decide)

/-- Claim C2: for a call to the quantity-tier resolver with a (truthy)
quantity strictly below every tier quantity of the (productName,
printOption, deliveryClass) group, the result is the group's unique
`is_moq = true` tier, carrying the below-minimum note and no
`total_price`. -/
theorem C2_moq_fallback (db : List PricingRow) (pn po lt : String) (q : Nat)
    (mrow : PricingRow)
    (hq : q ≠ 0) (hpo : po ≠ "") (hlt : lt ≠ "")
    (hbelow : ∀ r ∈ db, r.product_name = pn → r.print_option = po →
      r.lead_time_type = lt → q < r.quantity)
    (hmem : mrow ∈ db) (hpn : mrow.product_name = pn) (hpo2 : mrow.print_option = po)
    (hlt2 : mrow.lead_time_type = lt) (hmoq : mrow.is_moq = true)
    (huniq : ∀ r ∈ db, r.product_name = pn → r.print_option = po →
      r.lead_time_type = lt → r.is_moq = true → r = mrow) :
    getPriceForQuantity db pn (some po) lt (some q) = some (moqResult mrow (some q)) := by
  have hempty : firstQueryRows db pn (some po) lt (some q) = [] := by
    by_contra hne
    obtain ⟨r, hr⟩ := List.exists_mem_of_ne_nil _ hne
    obtain ⟨hrdb, hrpn, hrpo, hrlt, hrle⟩ := (mem_firstQueryRows hpo hlt hq).mp hr
    exact absurd hrle (not_le.mpr (hbelow r hrdb hrpn hrpo hrlt))
  have hmoqmem : mrow ∈ moqQueryRows db pn (some po) lt :=
    mem_moqQueryRows.mpr ⟨hmem, hpn, hpo2, hlt2, hmoq⟩
  have hhead : (moqQueryRows db pn (some po) lt).head? = some mrow := by
    refine head_eq_of_all_eq (List.ne_nil_of_mem hmoqmem) ?_
    intro x hx
    obtain ⟨hxdb, hxpn, hxpo, hxlt, hxmoq⟩ := mem_moqQueryRows.mp hx
    exact huniq x hxdb hxpn hxpo hxlt hxmoq
  have hpick : pickMaxQty (firstQueryRows db pn (some po) lt (some q)) = none := by
    rw [hempty]; rfl
  simp [getPriceForQuantity, hpick, hhead]

/-- The MOQ tier of the example group. -/
def tierC2_moq : PricingRow := lanyardRow 30 6 true

/-- Claim C2 witness: requesting quantity 10 against the example group
whose lowest tier is quantity 30 returns the quantity-30 MOQ tier,
flagged with the below-minimum note and with `total_price` absent. -/
theorem C2_moq_fallback_witness :
    getPriceForQuantity exDbC1 "Lanyard" (some "1c x 0c") "local" (some 10)
      = some (moqResult tierC2_moq (some 10)) :=
  C2_moq_fallback exDbC1 "Lanyard" "1c x 0c" "local" 10 tierC2_moq
    (by decide) (by decide) (by decide) (by decide) (by decide) (by decide)
    (by decide) (by decide) (by decide) (by decide)

/-- Claim C3 counterexample: with the quantity omitted the resolver does
not return the full tier list — on the example six-tier group it returns
a single tier, the largest-quantity (1000) non-MOQ tier, even though the
group also holds a quantity-30 MOQ tier. -/
theorem C3_no_tier_list_counterexample :
    getPriceForQuantity exDbC1 "Lanyard" (some "1c x 0c") "local" none
      = some (normalResult (lanyardRow 1000 1 false) none)
    ∧ (normalResult (lanyardRow 1000 1 false) none).quantity = 1000
    ∧ (normalResult (lanyardRow 1000 1 false) none).is_moq = false
    ∧ (normalResult (lanyardRow 1000 1 false) none).total_price = none
    ∧ lanyardRow 30 6 true ∈ exDbC1
    ∧ (lanyardRow 30 6 true).is_moq = true := by
  refine ⟨by decide, by decide, by decide, by decide, by decide, by decide⟩

/-- Claim C3 as amended: with the quantity omitted, the resolver still
selects a single tier — the group tier of largest quantity (`tier` here,
pinned as the unique maximal tier of the group) — with no `total_price`;
the full sorted tier list is produced by the separate `getAllPricingTiers`
query, not by this resolver. -/
theorem C3_largest_tier_when_omitted (db : List PricingRow) (pn po lt : String)
    (tier : PricingRow)
    (hpo : po ≠ "") (hlt : lt ≠ "")
    (hmem : tier ∈ db) (hpn : tier.product_name = pn) (hpo2 : tier.print_option = po)
    (hlt2 : tier.lead_time_type = lt)
    (hmax : ∀ r ∈ db, r.product_name = pn → r.print_option = po → r.lead_time_type = lt →
      r.quantity ≤ tier.quantity)
    (huniq : ∀ r ∈ db, r.product_name = pn → r.print_option = po → r.lead_time_type = lt →
      r.quantity = tier.quantity → r = tier) :
    getPriceForQuantity db pn (some po) lt none = some (normalResult tier none)
      ∧ (normalResult tier none).total_price = none := by
  refine ⟨?_, rfl⟩
  have htl : tier ∈ firstQueryRows db pn (some po) lt none :=
    (mem_firstQueryRows_noqty hpo hlt).mpr ⟨hmem, hpn, hpo2, hlt2⟩
  cases hm : pickMaxQty (firstQueryRows db pn (some po) lt none) with
  | none =>
    rw [pickMaxQty_eq_none_iff] at hm
    rw [hm] at htl
    simp at htl
  | some m =>
    have hmmem := pickMaxQty_mem hm
    obtain ⟨hmdb, hmpn, hmpo, hmlt⟩ := (mem_firstQueryRows_noqty hpo hlt).mp hmmem
    have h1 : tier.quantity ≤ m.quantity := pickMaxQty_max hm tier htl
    have h2 : m.quantity ≤ tier.quantity := hmax m hmdb hmpn hmpo hmlt
    have heq : m = tier := huniq m hmdb hmpn hmpo hmlt (le_antisymm h2 h1)
    simp [getPriceForQuantity, hm, heq]

/-- Claim C3 amended witness: on the example group, the omitted-quantity
call returns the quantity-1000 tier with no total price. -/
theorem C3_largest_tier_when_omitted_witness :
    getPriceForQuantity exDbC1 "Lanyard" (some "1c x 0c") "local" none
      = some (normalResult (lanyardRow 1000 1 false) none)
    ∧ (normalResult (lanyardRow 1000 1 false) none).total_price = none :=
  C3_largest_tier_when_omitted exDbC1 "Lanyard" "1c x 0c" "local" (lanyardRow 1000 1 false)
    (by decide) (by decide) (by decide) (by decide) (by decide) (by decide)
    (by decide) (by decide)

/-- Claim C10: a requested quantity of 0 is falsy and therefore treated
exactly like an omitted quantity — no quantity ceiling, the same
(largest) tier selected, no MOQ fallback triggered — the only difference
being the echoed `requested_quantity`; and the result, if any, carries no
`total_price`. -/
theorem C10_zero_like_omitted (db : List PricingRow) (pn : String)
    (po : Option String) (lt : String) :
    getPriceForQuantity db pn po lt (some 0)
      = (getPriceForQuantity db pn po lt none).map
          (fun r => { r with requested_quantity := some 0 })
    ∧ ∀ r, getPriceForQuantity db pn po lt (some 0) = some r → r.total_price = none := by
  have hfq : firstQueryRows db pn po lt (some 0) = firstQueryRows db pn po lt none := rfl
  constructor
  · simp only [getPriceForQuantity, hfq]
    cases pickMaxQty (firstQueryRows db pn po lt none) with
    | some tier => simp [normalResult, jsTruthyNat]
    | none =>
      cases (moqQueryRows db pn po lt).head? with
      | some m => simp [moqResult]
      | none => simp
  · intro r hr
    simp only [getPriceForQuantity, hfq] at hr
    cases hp : pickMaxQty (firstQueryRows db pn po lt none) with
    | some tier =>
      rw [hp] at hr
      simp at hr
      rw [← hr]
      simp [normalResult, jsTruthyNat]
    | none =>
      rw [hp] at hr
      cases hh : (moqQueryRows db pn po lt).head? with
      | some m =>
        rw [hh] at hr
        simp at hr
        rw [← hr]
        simp [moqResult]
      | none => rw [hh] at hr; simp at hr

/-- Claim C10 witness: on the example group, quantity 0 returns the same
largest (1000) tier as an omitted quantity, with `total_price` null. -/
theorem C10_zero_like_omitted_witness :
    getPriceForQuantity exDbC1 "Lanyard" (some "1c x 0c") "local" (some 0)
      = (getPriceForQuantity exDbC1 "Lanyard" (some "1c x 0c") "local" none).map
          (fun r => { r with requested_quantity := some 0 })
    ∧ (normalResult (lanyardRow 1000 1 false) (some 0)).total_price = none :=
  ⟨(C10_zero_like_omitted exDbC1 "Lanyard" (some "1c x 0c") "local").1,
    (C10_zero_like_omitted exDbC1 "Lanyard" (some "1c x 0c") "local").2
      (normalResult (lanyardRow 1000 1 false) (some 0)) (by decide)⟩

/-- A one-row pricing group whose single tier is not flagged `is_moq`. -/
def rowC6 : PricingRow :=
  { product_name := "Pen", print_option := "1c x 0c", lead_time_type := "local",
    lead_time_days_min := 5, lead_time_days_max := 7, quantity := 30, unit_price := 1,
    currency := "SGD", is_moq := false }

/-- The store for the C6 counterexample. -/
def dbC6 : List PricingRow := [rowC6]

/-- Claim C6 counterexample: the resolver can return null for a call
whose (productName, printOption, deliveryClass) group is non-empty —
here a one-tier group (quantity 30, not flagged `is_moq`) queried at
quantity 10 yields null because the quantity is below the tier and the
MOQ fallback query finds no `is_moq = true` row. -/
theorem C6_null_on_nonempty_group_counterexample :
    getPriceForQuantity dbC6 "Pen" (some "1c x 0c") "local" (some 10) = none
    ∧ rowC6 ∈ dbC6
    ∧ rowC6.product_name = "Pen"
    ∧ rowC6.print_option = "1c x 0c"
    ∧ rowC6.lead_time_type = "local" := by
  refine ⟨by decide, by decide, by decide, by decide, by decide⟩

theorem firstQueryRows_eq_nil_iff {db : List PricingRow} {pn po lt : String} {q : Nat}
    (hpo : po ≠ "") (hlt : lt ≠ "") (hq : q ≠ 0) :
    firstQueryRows db pn (some po) lt (some q) = [] ↔
      ∀ r ∈ db, r.product_name = pn → r.print_option = po → r.lead_time_type = lt →
        ¬ r.quantity ≤ q := by
  rw [List.eq_nil_iff_forall_not_mem]
  constructor
  · intro h r hr h1 h2 h3 h4
    exact h r ((mem_firstQueryRows hpo hlt hq).mpr ⟨hr, h1, h2, h3, h4⟩)
  · intro h r hr
    obtain ⟨h1, h2, h3, h4, h5⟩ := (mem_firstQueryRows hpo hlt hq).mp hr
    exact h r h1 h2 h3 h4 h5

theorem moqQueryRows_eq_nil_iff {db : List PricingRow} {pn po lt : String} :
    moqQueryRows db pn (some po) lt = [] ↔
      ∀ r ∈ db, r.product_name = pn → r.print_option = po → r.lead_time_type = lt →
        r.is_moq = false := by
  rw [List.eq_nil_iff_forall_not_mem]
  constructor
  · intro h r hr h1 h2 h3
    by_contra hmoq
    exact h r (mem_moqQueryRows.mpr ⟨hr, h1, h2, h3, Bool.not_eq_false _ |>.mp hmoq⟩)
  · intro h r hr
    obtain ⟨h1, h2, h3, h4, h5⟩ := mem_moqQueryRows.mp hr
    rw [h r h1 h2 h3 h4] at h5
    exact Bool.false_ne_true h5

/-- Claim C6 as amended: with a truthy print option and quantity, the
resolver returns null exactly when the group has no tier at or below the
requested quantity and also no `is_moq = true` tier — so a non-empty
group can still yield null, contrary to the original claim. -/
theorem C6_null_characterization (db : List PricingRow) (pn po lt : String) (q : Nat)
    (hq : q ≠ 0) (hpo : po ≠ "") (hlt : lt ≠ "") :
    getPriceForQuantity db pn (some po) lt (some q) = none ↔
      (∀ r ∈ db, r.product_name = pn → r.print_option = po → r.lead_time_type = lt →
        ¬ r.quantity ≤ q)
      ∧ (∀ r ∈ db, r.product_name = pn → r.print_option = po → r.lead_time_type = lt →
        r.is_moq = false) := by
  rw [← firstQueryRows_eq_nil_iff hpo hlt hq, ← moqQueryRows_eq_nil_iff]
  constructor
  · intro h
    cases h1 : pickMaxQty (firstQueryRows db pn (some po) lt (some q)) with
    | some t => simp [getPriceForQuantity, h1] at h
    | none =>
      cases h2 : (moqQueryRows db pn (some po) lt).head? with
      | some m => simp [getPriceForQuantity, h1, h2] at h
      | none =>
        exact ⟨pickMaxQty_eq_none_iff _ |>.mp h1, List.head?_eq_none_iff.mp h2⟩
  · intro ⟨h1, h2⟩
    have hp : pickMaxQty (firstQueryRows db pn (some po) lt (some q)) = none := by
      rw [h1]; rfl
    have hh : (moqQueryRows db pn (some po) lt).head? = none := by
      rw [h2]; rfl
    simp [getPriceForQuantity, hp, hh]

/-- Claim C6 amended witness: on the one-tier non-MOQ group at quantity
10, both emptiness conditions hold and the resolver indeed returns null. -/
theorem C6_null_characterization_witness :
    getPriceForQuantity dbC6 "Pen" (some "1c x 0c") "local" (some 10) = none :=
  (C6_null_characterization dbC6 "Pen" "1c x 0c" "local" 10
    (by decide) (by decide) (by decide)).mpr ⟨by decide, by decide⟩

theorem mem_map_tag {l : List Product} {tag : String} {r : Product} {mt : String}
    (h : (r, mt) ∈ l.map (fun p => (p, tag))) : mt = tag := by
  obtain ⟨a, _, heq⟩ := List.mem_map.mp h
  exact (Prod.mk.injEq _ _ _ _ |>.mp heq).2.symm

/-- Claim C7: the three match tiers are evaluated in strict priority.
When a byte-equal exact match exists among the stored products (passing
the category filter), the whole returned list is the exact tier tagged
`exact` — never any fuzzy result; and any returned list is homogeneous in
its confidence tag. -/
theorem C7_tier_priority (store : List Product) (query : String)
    (category : Option String) (lim : Nat) :
    (((strTrim query) ≠ "") →
      (∃ p, p ∈ store ∧ p.name = (strTrim query) ∧ catMatch category p = true) →
      searchProducts store query category lim
        = (searchExact store (strTrim query) category lim).map (fun p => (p, "exact")))
    ∧ (∀ r1 mt1 r2 mt2, (r1, mt1) ∈ searchProducts store query category lim →
        (r2, mt2) ∈ searchProducts store query category lim → mt1 = mt2) := by
  constructor
  · intro hq hex
    obtain ⟨p, hp, hpn, hpc⟩ := hex
    have hqb : ((strTrim query) == "") = false := by simp [hq]
    have hpfil : p ∈ store.filter (fun p => p.name == (strTrim query) && catMatch category p) := by
      rw [List.mem_filter]
      exact ⟨hp, by simp [hpn, hpc]⟩
    by_cases hr1 : (searchExact store (strTrim query) category lim).isEmpty
    · have hnil : searchExact store (strTrim query) category lim = [] := List.isEmpty_iff.mp hr1
      have hlim : lim = 0 := by
        rcases List.take_eq_nil_iff.mp hnil with h | h
        · exact h
        · exact absurd h (List.ne_nil_of_mem hpfil)
      subst hlim
      have h2 : searchExactInsensitive store (strTrim query) category 0 = [] := by
        simp [searchExactInsensitive]
      have h3 : searchFuzzy store (strTrim query) category 0 = [] := by
        simp [searchFuzzy]
      simp [searchProducts, hqb, hnil, h2, h3]
    · simp [searchProducts, hqb, hr1]
  · intro r1 mt1 r2 mt2 h1 h2
    simp only [searchProducts] at h1 h2
    by_cases hq : ((strTrim query) == "") = true
    · simp [hq] at h1
    · simp only [hq, if_false, Bool.false_eq_true] at h1 h2
      by_cases e1 : (searchExact store (strTrim query) category lim).isEmpty
      · by_cases e2 : (searchExactInsensitive store (strTrim query) category lim).isEmpty
        · by_cases e3 : ((searchFuzzy store (strTrim query) category lim).filter
              (fun p => validateMatch (strTrim query) p.name)).isEmpty
          · simp [e1, e2, e3] at h1
          · simp only [e1, e2, e3, Bool.not_true, Bool.not_false, if_true, if_false,
              Bool.false_eq_true] at h1 h2
            rw [mem_map_tag h1, mem_map_tag h2]
        · simp only [e1, e2, Bool.not_true, Bool.not_false, if_true, if_false,
            Bool.false_eq_true] at h1 h2
          rw [mem_map_tag h1, mem_map_tag h2]
      · simp only [e1, Bool.not_true, Bool.not_false, if_true, if_false,
          Bool.false_eq_true] at h1 h2
        rw [mem_map_tag h1, mem_map_tag h2]

/-- The mug product of the C7 witness store. -/
def mugC7 : Product := { name := "Mug", category := some "drinkware", dimensions := none }

/-- The C7 witness store: an exact match and a near-name sibling. -/
def storeC7 : List Product :=
  [mugC7, { name := "Mug Large", category := some "drinkware", dimensions := none }]

/-- Claim C7 witness: the query "Mug" against a store holding "Mug"
byte-equal returns exactly the exact tier, and two results of the
returned list carry the same tag. -/
theorem C7_tier_priority_witness :
    searchProducts storeC7 "Mug" none 10
      = (searchExact storeC7 "Mug" none 10).map (fun p => (p, "exact"))
    ∧ ("exact" : String) = "exact" :=
  ⟨(C7_tier_priority storeC7 "Mug" none 10).1 (by decide) ⟨mugC7, by decide⟩,
   (C7_tier_priority storeC7 "Mug" none 10).2 mugC7 "exact" mugC7 "exact"
     (by decide) (by decide)⟩

/-- Claim C8: every fuzzy-tier result of `searchProducts` has at least
half of the query's significant words overlapping (substring in either
direction) with some word of the product name; and when the query has no
significant words the validation filter accepts every candidate
unfiltered. -/
theorem C8_word_overlap_guard (store : List Product) (query : String)
    (category : Option String) (lim : Nat) :
    (∀ r, (r, "fuzzy") ∈ searchProducts store query category lim →
      sigWords (strTrim query) ≠ [] →
      (sigWords (strTrim query)).length ≤
        2 * ((sigWords (strTrim query)).filter (fun sw =>
          (jsSplitWs (strLower r.name)).any (fun pw =>
            strContains pw sw || strContains sw pw))).length)
    ∧ (sigWords (strTrim query) = [] → ∀ name, validateMatch (strTrim query) name = true) := by
  constructor
  · intro r hr hsig
    have hval : validateMatch (strTrim query) r.name = true := by
      simp only [searchProducts] at hr
      by_cases hq : ((strTrim query) == "") = true
      · simp [hq] at hr
      · simp only [hq, if_false, Bool.false_eq_true] at hr
        by_cases e1 : (searchExact store (strTrim query) category lim).isEmpty
        · by_cases e2 : (searchExactInsensitive store (strTrim query) category lim).isEmpty
          · by_cases e3 : ((searchFuzzy store (strTrim query) category lim).filter
                (fun p => validateMatch (strTrim query) p.name)).isEmpty
            · simp [e1, e2, e3] at hr
            · simp only [e1, e2, e3, Bool.not_true, Bool.not_false, if_true, if_false,
                Bool.false_eq_true] at hr
              obtain ⟨a, ha, heq⟩ := List.mem_map.mp hr
              obtain ⟨rfl, -⟩ := Prod.mk.injEq _ _ _ _ |>.mp heq
              exact (List.mem_filter.mp ha).2
          · simp only [e1, e2, Bool.not_true, Bool.not_false, if_true, if_false,
              Bool.false_eq_true] at hr
            exact absurd (mem_map_tag hr) (by decide)
        · simp only [e1, Bool.not_true, Bool.not_false, if_true, if_false,
            Bool.false_eq_true] at hr
          exact absurd (mem_map_tag hr) (by decide)
    have hne : (sigWords (strTrim query)).isEmpty = false := by
      cases h : sigWords (strTrim query) with
      | nil => exact absurd h hsig
      | cons a t => rfl
    simp only [validateMatch, hne, Bool.false_eq_true, if_false,
      decide_eq_true_eq] at hval
    exact hval
  · intro hsig name
    have hne : (sigWords (strTrim query)).isEmpty = true := by rw [hsig]; rfl
    simp [validateMatch, hne]

/-- The tote-bag product of the C8 witness store. -/
def toteC8 : Product := { name := "Tote Bag Large", category := some "bags", dimensions := none }

/-- The C8 witness store. -/
def storeC8 : List Product := [toteC8]

/-- Claim C8 witness: the query "tote bag" fuzzy-matches "Tote Bag
Large" with both significant words overlapping (2 ≤ 2·2), and the empty
query has no significant words so the filter accepts any name. -/
theorem C8_word_overlap_guard_witness :
    ((sigWords (strTrim ("tote bag" : String))).length ≤
      2 * ((sigWords (strTrim ("tote bag" : String))).filter (fun sw =>
        (jsSplitWs (strLower toteC8.name)).any (fun pw =>
          strContains pw sw || strContains sw pw))).length)
    ∧ validateMatch (strTrim ("" : String)) "Tote Bag" = true :=
  ⟨(C8_word_overlap_guard storeC8 "tote bag" none 10).1 toteC8 (by decide) (by decide),
   (C8_word_overlap_guard storeC8 "" none 10).2 (by decide) "Tote Bag"⟩

/-- Claim C9 counterexample: a failing store answer to the print-option
query makes `matchPrintOption` return a successful null — the store
failure is silently swallowed, indistinguishable from a variant with no
recorded options, instead of being propagated as an error. -/
theorem C9_swallowed_store_error_counterexample :
    matchPrintOptionE (Except.error "connection reset") "silkscreen"
      = Except.ok none := rfl

/-- Claim C9 as amended: the product-search queries propagate a store
failure as a thrown `Database error`, but `matchPrintOption` converts a
failed store read into a null result. -/
theorem C9_propagation_split :
    (∀ e : String, searchExactE (Except.error e)
      = Except.error ("Database error: " ++ e))
    ∧ (∀ (e : String) (inp : String),
      matchPrintOptionE (Except.error e) inp = Except.ok none) :=
  ⟨fun _ => rfl, fun _ _ => rfl⟩

theorem processProduct_color_guard (pricingDb : List PricingRow) (productsDb : List Product)
    (quantity : Option Nat) (po leadTimeType : String) (product : Product)
    (res : ProductPricingResult) (d1 d2 : Char)
    (hc : findColor (strLower po).toList = some (d1, d2))
    (hres : processProduct pricingDb productsDb quantity (some po) leadTimeType product
      = some res) :
    strContains (strLower res.print_option) (colorPatternStr d1 d2) = true := by
  have hpo : po ≠ "" := by
    intro h
    subst h
    have hnil : (strLower "").toList = [] := rfl
    rw [hnil] at hc
    simp [findColor] at hc
  have hb : jsTruthyStr (some po) = true := by simp [jsTruthyStr, hpo]
  simp only [processProduct, hb, if_true, Option.getD_some] at hres
  cases hm : matchPrintOption pricingDb product.name po leadTimeType with
  | none => rw [hm] at hres; simp at hres
  | some spo =>
    rw [hm, hc] at hres
    dsimp only at hres
    by_cases hsc : strContains (strLower spo) (colorPatternStr d1 d2) = true
    · rw [if_pos hsc] at hres
      dsimp only at hres
      cases hgp : getPriceForQuantity pricingDb product.name (some spo) leadTimeType quantity with
      | none => rw [hgp] at hres; simp at hres
      | some pricing =>
        rw [hgp] at hres
        dsimp only at hres
        simp only [Option.some.injEq] at hres
        have hopt : res.print_option = spo := by rw [← hres]
        rw [hopt]
        exact hsc
    · rw [if_neg hsc] at hres
      simp at hres

/-- Claim C5: for a pricing request whose print-option text contains a
color notation `<d>c x <d>c`, every result the pipeline returns has a
resolved print option containing the normalized pattern; candidates
whose resolved option lacks the pattern are dropped rather than priced
with a substituted print method. -/
theorem C5_color_pattern_guard (pricingDb : List PricingRow) (productsDb : List Product)
    (products : List Product) (quantity : Option Nat) (po leadTimeType : String)
    (res : ProductPricingResult) (d1 d2 : Char)
    (hc : findColor (strLower po).toList = some (d1, d2))
    (hres : res ∈ getPricingForProducts pricingDb productsDb products quantity (some po)
      leadTimeType) :
    strContains (strLower res.print_option) (colorPatternStr d1 d2) = true := by
  simp only [getPricingForProducts] at hres
  by_cases hp : products.isEmpty
  · simp [hp] at hres
  · simp only [hp, Bool.false_eq_true, if_false] at hres
    obtain ⟨o, ho, hoid⟩ := List.mem_filterMap.mp hres
    obtain ⟨prod, hprod, hpeq⟩ := List.mem_map.mp ho
    have : processProduct pricingDb productsDb quantity (some po) leadTimeType prod
        = some res := by
      rw [hpeq]; exact hoid
    exact processProduct_color_guard pricingDb productsDb quantity po leadTimeType prod
      res d1 d2 hc this

/-- The single pricing row of the C5 witness store. -/
def rowC5 : PricingRow :=
  { product_name := "Mug", print_option := "2c x 1c silkscreen", lead_time_type := "local",
    lead_time_days_min := 3, lead_time_days_max := 5, quantity := 50, unit_price := 2,
    currency := "SGD", is_moq := true }

/-- The C5 witness pricing store. -/
def pdbC5 : List PricingRow := [rowC5]

/-- The C5 witness product. -/
def prodC5 : Product := { name := "Mug", category := some "drinkware", dimensions := some "9cm" }

/-- The result the pipeline returns on the C5 witness input. -/
def resC5 : ProductPricingResult :=
  { product_name := "Mug"
    dimensions := some "9cm"
    category := some "drinkware"
    print_option := "2c x 1c silkscreen"
    lead_time := some { type := "local", days_min := 3, days_max := 5 }
    pricing := { requested_quantity := none, unit_price := 2, total_price := none,
                 currency := "SGD" }
    moq := some { quantity := 50, print_option := "2c x 1c silkscreen", unit_price := 2 }
    all_tiers := [{ quantity := 50, unit_price := 2, is_moq := true }] }

/-- Claim C5 witness: asking for "2c x 1c" against a product recording
"2c x 1c silkscreen" returns that option, which contains the normalized
pattern. -/
theorem C5_color_pattern_guard_witness :
    strContains (strLower resC5.print_option) (colorPatternStr '2' '1') = true :=
  C5_color_pattern_guard pdbC5 [prodC5] [prodC5] none "2c x 1c" "local" resC5 '2' '1'
    (by decide) (by decide)

/-- The single `overseas_sea` pricing row of the C4 counterexample. -/
def seaRowC4 : PricingRow :=
  { product_name := "Mug", print_option := "no print", lead_time_type := "overseas_sea",
    lead_time_days_min := 30, lead_time_days_max := 45, quantity := 50, unit_price := 1,
    currency := "SGD", is_moq := true }

/-- The single `overseas_air` pricing row of the C4 amended witness. -/
def airRowC4 : PricingRow :=
  { product_name := "Mug", print_option := "no print", lead_time_type := "overseas_air",
    lead_time_days_min := 10, lead_time_days_max := 14, quantity := 50, unit_price := 2,
    currency := "SGD", is_moq := true }

/-- The C4 product. -/
def prodC4 : Product := { name := "Mug", category := none, dimensions := none }

/-- Claim C4 counterexample: with `overseas_air` requested and the only
pricing recorded under `overseas_sea`, the route handler performs no
fallback at all — it returns an empty result tagged `overseas_air` even
though resolving at `overseas_sea` would succeed. -/
theorem C4_no_fallback_from_air_counterexample :
    queryWithFallback [seaRowC4] [] [prodC4] none none "overseas_air" = ([], "overseas_air")
    ∧ getPricingForProducts [seaRowC4] [] [prodC4] none none "overseas_sea" ≠ [] := by
  refine ⟨by decide, by decide⟩

/-- Claim C4 as amended: the delivery fallback runs only when the
requested class is `local` (local → overseas_air → overseas_sea); for
any other requested class the handler returns that class's result as-is,
and whenever a non-empty result is returned its reported class is the
class it was actually resolved under. -/
theorem C4_fallback_only_from_local (pricingDb : List PricingRow) (productsDb : List Product)
    (products : List Product) (quantity : Option Nat) (printOption : Option String)
    (lt0 : String) :
    ((lt0 ≠ "local") → queryWithFallback pricingDb productsDb products quantity printOption lt0
      = (getPricingForProducts pricingDb productsDb products quantity printOption lt0, lt0))
    ∧ (∀ res cls, queryWithFallback pricingDb productsDb products quantity printOption lt0
        = (res, cls) →
        res = getPricingForProducts pricingDb productsDb products quantity printOption cls)
    ∧ (lt0 = "local" →
        getPricingForProducts pricingDb productsDb products quantity printOption "local" = [] →
        getPricingForProducts pricingDb productsDb products quantity printOption "overseas_air"
          ≠ [] →
        queryWithFallback pricingDb productsDb products quantity printOption lt0
          = (getPricingForProducts pricingDb productsDb products quantity printOption
              "overseas_air", "overseas_air"))
    ∧ (lt0 = "local" →
        getPricingForProducts pricingDb productsDb products quantity printOption "local" = [] →
        getPricingForProducts pricingDb productsDb products quantity printOption "overseas_air"
          = [] →
        queryWithFallback pricingDb productsDb products quantity printOption lt0
          = (getPricingForProducts pricingDb productsDb products quantity printOption
              "overseas_sea", "overseas_sea")) := by
  refine ⟨?_, ?_, ?_, ?_⟩
  · intro hne
    have hb : (lt0 == "local") = false := by simp [hne]
    simp [queryWithFallback, hb]
  · intro res cls h
    simp only [queryWithFallback] at h
    by_cases h1 : (getPricingForProducts pricingDb productsDb products quantity printOption
        lt0).isEmpty && lt0 == "local"
    · have hlt : lt0 = "local" := by
        have := (Bool.and_eq_true _ _).mp h1
        simpa using this.2
      rw [if_pos h1] at h
      by_cases h2 : (getPricingForProducts pricingDb productsDb products quantity printOption
          "overseas_air").isEmpty
      · rw [if_pos h2] at h
        obtain ⟨rfl, rfl⟩ := Prod.mk.injEq _ _ _ _ |>.mp h.symm
        rfl
      · rw [if_neg h2] at h
        obtain ⟨rfl, rfl⟩ := Prod.mk.injEq _ _ _ _ |>.mp h.symm
        rfl
    · rw [if_neg h1] at h
      obtain ⟨rfl, rfl⟩ := Prod.mk.injEq _ _ _ _ |>.mp h.symm
      rfl
  · intro hlt h1 h2
    subst hlt
    have hb : (getPricingForProducts pricingDb productsDb products quantity printOption
        "local").isEmpty && ("local" == "local") = true := by
      simp [h1]
    have hb2 : (getPricingForProducts pricingDb productsDb products quantity printOption
        "overseas_air").isEmpty = false := by
      cases h : getPricingForProducts pricingDb productsDb products quantity printOption
        "overseas_air" with
      | nil => exact absurd h h2
      | cons a t => rfl
    simp [queryWithFallback, hb, hb2, h1]
  · intro hlt h1 h2
    subst hlt
    have hb : (getPricingForProducts pricingDb productsDb products quantity printOption
        "local").isEmpty && ("local" == "local") = true := by
      simp [h1]
    have hb2 : (getPricingForProducts pricingDb productsDb products quantity printOption
        "overseas_air").isEmpty = true := by
      rw [h2]; rfl
    simp [queryWithFallback, hb, hb2, h1]

/-- Claim C4 amended witness: with only `overseas_air` pricing recorded
and `local` requested, the handler falls back and reports
`overseas_air` as the class actually used. -/
theorem C4_fallback_only_from_local_witness :
    queryWithFallback [airRowC4] [] [prodC4] none none "local"
      = (getPricingForProducts [airRowC4] [] [prodC4] none none "overseas_air",
         "overseas_air") :=
  (C4_fallback_only_from_local [airRowC4] [] [prodC4] none none "local").2.2.1
    rfl (by decide) (by decide)
